import Mathlib

/-!
Verification of the NopElimination rewrite pass
(src/ngraph/pass/nop_elimination.cpp) against its specification.

The development shallowly embeds the pass: nodes carry an operator kind,
an ordered input list (producer node ids; every relevant operator has a
single output, port 0), and the output shape/element type computed at
construction.  Graph surgery is the single primitive
`replace_output_update_name`.  Pieces of the repository that are not in
the provided sources (the surgery primitive, shape inference for squeeze
and unsqueeze, shape comparison, graph enumeration) are modelled from the
specification and marked as such.
-/

/-- Tensor scalar types, compared by value equality. -/
inductive ElemType
  | f32 | f64 | i32 | i64 | u8 | boolean
deriving DecidableEq, Repr

/-- One axis extent: `none` means the size is dynamic (unknown). -/
abbrev Dim := Option Nat

/-- A shape: either of dynamic (unknown) rank, or of known rank with
possibly-dynamic axis sizes. -/
inductive PShape
  | dynRank
  | ranked (dims : List Dim)
deriving DecidableEq, Repr

/-- A shape is dynamic when its rank or any axis size is unknown. -/
def PShape.is_dynamic : PShape → Bool
  | .dynRank => true
  | .ranked dims => dims.any (fun d => d.isNone)

/-- Whether only the rank is unknown (PartialShape::rank().is_dynamic()). -/
def PShape.rank_is_dynamic : PShape → Bool
  | .dynRank => true
  | .ranked _ => false

/-- Modelled from the spec: the "same scheme" shape comparison — equal rank,
each axis either equal or one side unknown (PartialShape::same_scheme is not
among the provided sources). -/
def PShape.same_scheme : PShape → PShape → Bool
  | .dynRank, .dynRank => true
  | .ranked a, .ranked b =>
      decide (a.length = b.length) &&
      (a.zip b).all (fun q =>
        match q with
        | (none, _) => true
        | (_, none) => true
        | (some x, some y) => decide (x = y))
  | _, _ => false

/-- The fully static dimensions of a shape, when the shape is static. -/
def static_dims : PShape → Option (List Nat)
  | .dynRank => none
  | .ranked dims =>
      if dims.all (fun d => d.isSome) then some (dims.map (fun d => d.getD 0))
      else none

/-- Stable kind+version identifiers (NodeTypeInfo) for the operator kinds the
pass can meet.  `other` stands for the open universe of remaining kinds. -/
inductive TypeInfo
  | Pad_v0 | Pad_v1 | Sum_v0 | Convert_v0 | Slice_v0 | StopGradient_v0
  | Reshape_v1 | Concat_v0 | Squeeze_v0 | Unsqueeze_v0 | Broadcast_v0
  | Constant_v0 | NonZero_v3 | Parameter_v0
  | other (kind version : Nat)
deriving DecidableEq, Repr

/-- Operator payload of a node: the kind together with the attributes the
rewrite handlers inspect (Sum reduction axes, Convert destination type,
Constant data). -/
inductive Op
  | pad0 | pad1
  | sum0 (reduction_axes : List Nat)
  | convert0 (dest : ElemType)
  | slice0 | stopGradient0 | reshape1 | concat0 | squeeze0 | unsqueeze0
  | broadcast0
  | constant0 (data : List Int)
  | nonZero3
  | param0
  | other (kind version : Nat)
deriving DecidableEq, Repr

/-- The kind+version identity of an operator (Node::get_type_info). -/
def Op.typeInfo : Op → TypeInfo
  | .pad0 => .Pad_v0
  | .pad1 => .Pad_v1
  | .sum0 _ => .Sum_v0
  | .convert0 _ => .Convert_v0
  | .slice0 => .Slice_v0
  | .stopGradient0 => .StopGradient_v0
  | .reshape1 => .Reshape_v1
  | .concat0 => .Concat_v0
  | .squeeze0 => .Squeeze_v0
  | .unsqueeze0 => .Unsqueeze_v0
  | .broadcast0 => .Broadcast_v0
  | .constant0 _ => .Constant_v0
  | .nonZero3 => .NonZero_v3
  | .param0 => .Parameter_v0
  | .other k v => .other k v

/-- Models as_type_ptr to op::v0::Sum: the reduction axes when the node is a
Sum, null (`none`) otherwise. -/
def as_type_sum : Op → Option (List Nat)
  | .sum0 axes => some axes
  | _ => none

/-- Models as_type_ptr to opset3::Convert. -/
def as_type_convert : Op → Option ElemType
  | .convert0 t => some t
  | _ => none

/-- Models as_type_ptr / is_type for opset3::Squeeze. -/
def is_squeeze : Op → Bool
  | .squeeze0 => true
  | _ => false

/-- Models as_type_ptr / is_type for opset3::Unsqueeze. -/
def is_unsqueeze : Op → Bool
  | .unsqueeze0 => true
  | _ => false

/-- Models as_type_ptr / is_type for opset3::Reshape. -/
def is_reshape : Op → Bool
  | .reshape1 => true
  | _ => false

/-- Models is_type for opset3::Convert. -/
def is_convert : Op → Bool
  | .convert0 _ => true
  | _ => false

/-- A graph node: its operator, the producers of its inputs (node ids; all
producers export a single output, port 0), and the output shape and element
type established by construction-time inference. -/
structure Node where
  op : Op
  inputs : List Nat
  outShape : PShape
  outType : ElemType
deriving DecidableEq, Repr

/-- Rewire one node: every input reading output `o` now reads output `r`. -/
def remap (o r : Nat) (nd : Node) : Node :=
  { nd with inputs := nd.inputs.map (fun j => if j = o then r else j) }

/-- A graph: association list from node id to node.  The node set of a
Function; reachability is induced by the input lists. -/
structure Graph where
  nodes : List (Nat × Node)
deriving DecidableEq, Repr

/-- Look a node up by id. -/
def Graph.find (g : Graph) (i : Nat) : Option Node :=
  (g.nodes.find? (fun p => decide (p.1 = i))).map (fun p => p.2)

/-- All consumer slots currently reading the output of node `i`
(Output::get_target_inputs): one entry per reading input slot, carrying the
consumer's node id. -/
def Graph.target_inputs (g : Graph) (i : Nat) : List Nat :=
  g.nodes.foldr
    (fun p acc =>
      (p.2.inputs.filter (fun j => decide (j = i))).map (fun _ => p.1) ++ acc)
    []

/-- A fresh node id, larger than every id in use. -/
def Graph.fresh (g : Graph) : Nat :=
  (g.nodes.map (fun p => p.1)).foldr max 0 + 1

/-- Rewire every consumer of output `o` to read output `r` instead. -/
def rewire (g : Graph) (o r : Nat) : Graph :=
  ⟨g.nodes.map (fun p => (p.1, remap o r p.2))⟩

/-- Modelled from the spec: the graph-surgery primitive
replace_output_update_name (ngraph/graph_util, not among the provided
sources) — rewires every consumer of `o` to read `r`, transfers the
diagnostic name (not modelled: names carry no semantics here), and returns
whether any consumer existed. -/
def replace_output_update_name (g : Graph) (o r : Nat) : Bool × Graph :=
  (!(g.target_inputs o).isEmpty, rewire g o r)

/-- Models the construction of std::set of uint64_t from a vector: the
sorted list of the distinct elements. -/
def sortedSet (l : List Nat) : List Nat :=
  l.dedup.insertionSort (· ≤ ·)

/-- Models std::set_difference on sorted unique ranges: the elements of `a`
not in `b`, in order. -/
def set_difference (a b : List Nat) : List Nat :=
  a.filter (fun x => decide (x ∉ b))

/-- Translation of get_axes_remaining (nop_elimination.cpp lines 137-165),
returning the data of the produced Constant: fails when `fromAxes` has
elements outside `toAxes`; otherwise the sorted set difference
`toAxes - fromAxes`, each element shifted down by the number of distinct
`fromAxes` elements when it is at least that number and the rank-reducing
flag is off. -/
def get_axes_remaining (fromAxes toAxes : List Nat)
    (is_rank_reducing : Bool := true) : Option (List Nat) :=
  let i1 := sortedSet fromAxes
  let i2 := sortedSet toAxes
  let axes := set_difference i1 i2
  if axes.length ≠ 0 then none
  else
    let axes := set_difference i2 i1
    if !is_rank_reducing then
      some (axes.map (fun a => if a < i1.length then a else a - i1.length))
    else some axes

/-- Translation of is_equal_axes (nop_elimination.cpp lines 167-175):
the symmetric difference of the two deduplicated sets is empty. -/
def is_equal_axes (a b : List Nat) : Bool :=
  let i1 := sortedSet a
  let i2 := sortedSet b
  (set_difference i1 i2 ++ set_difference i2 i1).length = 0

/-- Modelled from the spec: the axes attribute of a squeeze or unsqueeze is
read from its second input, a v0 Constant holding a deduplicated set of
non-negative axis indices (Squeeze/Unsqueeze::get_axes is not among the
provided sources).  `none` when that input is not a Constant. -/
def get_axes (g : Graph) (n : Node) : Option (List Nat) :=
  match n.inputs.get? 1 with
  | none => none
  | some cid =>
    match g.find cid with
    | some nd =>
      match nd.op with
      | .constant0 data => some (data.map Int.toNat)
      | _ => none
    | none => none

/-- Modelled from the spec: shape inference for squeeze over a known-rank
input — the axes in the set are removed; each must index an axis whose size
is 1 or unknown, else construction fails. -/
def squeeze_infer (dims : List Dim) (axes : List Nat) : Option (List Dim) :=
  let s := sortedSet axes
  if s.all (fun a =>
      match dims.get? a with
      | some (some 1) => true
      | some none => true
      | _ => false) then
    some ((dims.enum.filter (fun q => decide (q.1 ∉ s))).map (fun q => q.2))
  else none

/-- Builds the unsqueeze output dimensions: walk the output positions,
inserting a size-1 axis at each position in the set and copying the next
input axis elsewhere. -/
def unsq_build : Nat → Nat → List Nat → List Dim → List Dim
  | 0, _, _, _ => []
  | k+1, p, s, ds =>
    if p ∈ s then (some 1 : Dim) :: unsq_build k (p+1) s ds
    else
      match ds with
      | [] => []
      | d :: rest => d :: unsq_build k (p+1) s rest

/-- Modelled from the spec: shape inference for unsqueeze over a known-rank
input — size-1 axes are inserted at the positions in the set; each position
must be below the output rank, else construction fails. -/
def unsqueeze_infer (dims : List Dim) (axes : List Nat) : Option (List Dim) :=
  let s := sortedSet axes
  let outRank := dims.length + s.length
  if s.all (fun a => decide (a < outRank)) then
    some (unsq_build outRank 0 s dims)
  else none

/-- Output shape of a squeeze built over the given input shape. -/
def squeeze_out_pshape : PShape → List Nat → Option PShape
  | .dynRank, _ => some .dynRank
  | .ranked dims, axes => (squeeze_infer dims axes).map PShape.ranked

/-- Output shape of an unsqueeze built over the given input shape. -/
def unsqueeze_out_pshape : PShape → List Nat → Option PShape
  | .dynRank, _ => some .dynRank
  | .ranked dims, axes => (unsqueeze_infer dims axes).map PShape.ranked

/-- Output shape of the candidate replacement node (a squeeze or unsqueeze
over the base input `baseId` with the given axes), as construction-time
inference would compute it; `none` when the base is missing, construction
would fail, or the operator is of neither kind. -/
def resid_out_pshape (g : Graph) (baseId : Nat) (op : Op) (axes : List Nat) :
    Option PShape :=
  match g.find baseId with
  | none => none
  | some b =>
    match op with
    | .squeeze0 => squeeze_out_pshape b.outShape axes
    | .unsqueeze0 => unsqueeze_out_pshape b.outShape axes
    | _ => none

/-- The same-scheme safety check on a candidate replacement: true when the
replacement can be constructed and its output shape matches the original
output shape by same-scheme comparison. -/
def resid_scheme_ok (g : Graph) (baseId : Nat) (op : Op) (origPs : PShape)
    (axes : List Nat) : Bool :=
  match resid_out_pshape g baseId op axes with
  | some p => PShape.same_scheme origPs p
  | none => false

/-- Splice in a freshly built squeeze/unsqueeze: add the axes Constant and
the new node to the graph, then rewire the consumers of `i` onto it. -/
def splice_with_new_node (g : Graph) (i baseId : Nat) (axes : List Nat)
    (op : Op) (outPs : PShape) : Bool × Graph :=
  let cId := g.fresh
  let nId := cId + 1
  let cNode : Node :=
    { op := .constant0 (axes.map Int.ofNat), inputs := [],
      outShape := .ranked [some axes.length], outType := .i64 }
  let bt := ((g.find baseId).map (fun b => b.outType)).getD .f32
  let newNode : Node :=
    { op := op, inputs := [baseId, cId], outShape := outPs, outType := bt }
  replace_output_update_name ⟨g.nodes ++ [(cId, cNode), (nId, newNode)]⟩ i nId

/-- Splice in a freshly built reshape to the static shape `dims` over input
`innerId`: add the pattern Constant and the reshape, rewire consumers. -/
def splice_with_new_reshape (g : Graph) (i innerId : Nat) (dims : List Nat) :
    Bool × Graph :=
  let cId := g.fresh
  let rId := cId + 1
  let cNode : Node :=
    { op := .constant0 (dims.map Int.ofNat), inputs := [],
      outShape := .ranked [some dims.length], outType := .i64 }
  let bt := ((g.find innerId).map (fun b => b.outType)).getD .f32
  let rNode : Node :=
    { op := .reshape1, inputs := [innerId, cId],
      outShape := .ranked (dims.map some), outType := bt }
  replace_output_update_name ⟨g.nodes ++ [(cId, cNode), (rId, rNode)]⟩ i rId

/-- One residual-fusion attempt (the body of each get_axes_remaining block
in eliminate_unsqueeze/eliminate_squeeze): when the residual axes are
solvable and the candidate replacement passes the same-scheme check, splice
it in; otherwise fall through. -/
def resid_attempt (g : Graph) (i baseId : Nat) (op : Op) (origPs : PShape)
    (fromAxes toAxes : List Nat) (rr : Bool) (fallback : Bool × Graph) :
    Bool × Graph :=
  match get_axes_remaining fromAxes toAxes rr with
  | some axes =>
    match resid_out_pshape g baseId op axes with
    | some p =>
      if PShape.same_scheme origPs p then
        splice_with_new_node g i baseId axes op p
      else fallback
    | none => fallback
  | none => fallback

/-- Translation of eliminate_nop (lines 47-61): skip when the input or
output shape is dynamic; splice the node out when the shapes are equal. -/
def eliminate_nop (g : Graph) (i : Nat) : Bool × Graph :=
  match g.find i with
  | none => (false, g)
  | some n =>
    match n.inputs.head? with
    | none => (false, g)
    | some a =>
      match g.find a with
      | none => (false, g)
      | some an =>
        if an.outShape.is_dynamic || n.outShape.is_dynamic then (false, g)
        else if an.outShape = n.outShape then replace_output_update_name g i a
        else (false, g)

/-- Translation of eliminate_sum (lines 63-71): splice out a Sum whose
reduction-axis set is empty.  The unguarded downcast of the source is
modelled by the as_type_sum match; the none arm is unreachable under the
dispatcher (see the dispatched-downcast theorem). -/
def eliminate_sum (g : Graph) (i : Nat) : Bool × Graph :=
  match g.find i with
  | none => (false, g)
  | some n =>
    match as_type_sum n.op with
    | none => (false, g)
    | some axes =>
      if axes.isEmpty then
        match n.inputs.head? with
        | some a => replace_output_update_name g i a
        | none => (false, g)
      else (false, g)

/-- The declared set of type-agnostic operator kinds (line 76). -/
def type_agnostic : List TypeInfo := [.NonZero_v3]

/-- Whether the sole consumer of output `i` is of a type-agnostic kind
(lines 75-81): exactly one consumer slot whose node's kind is in the set. -/
def convert_agnostic (g : Graph) (i : Nat) : Bool :=
  match g.target_inputs i with
  | [c] =>
    match g.find c with
    | some cn => type_agnostic.contains cn.op.typeInfo
    | none => false
  | _ => false

/-- Translation of eliminate_convert (lines 73-93): splice out a conversion
to its input's own element type, or one feeding only a type-agnostic
consumer; in the latter case collapse through an input conversion. -/
def eliminate_convert (g : Graph) (i : Nat) : Bool × Graph :=
  match g.find i with
  | none => (false, g)
  | some n =>
    let agn := convert_agnostic g i
    match as_type_convert n.op with
    | none => (false, g)
    | some dest =>
      match n.inputs.head? with
      | none => (false, g)
      | some a =>
        match g.find a with
        | none => (false, g)
        | some an =>
          if dest = an.outType || agn then
            if agn && is_convert an.op then
              replace_output_update_name g i ((an.inputs.head?).getD a)
            else replace_output_update_name g i a
          else (false, g)

/-- Translation of eliminate_concat (lines 95-105): splice out a
concatenation with a single input. -/
def eliminate_concat (g : Graph) (i : Nat) : Bool × Graph :=
  match g.find i with
  | none => (false, g)
  | some n =>
    match n.inputs with
    | [a] => replace_output_update_name g i a
    | _ => (false, g)

/-- Translation of eliminate_reshape_v1 (lines 107-135): skip on dynamic
shapes; splice out an identity reshape; fuse a reshape over a reshape,
squeeze or unsqueeze into one reshape to the final static shape. -/
def eliminate_reshape_v1 (g : Graph) (i : Nat) : Bool × Graph :=
  match g.find i with
  | none => (false, g)
  | some n =>
    match n.inputs.head? with
    | none => (false, g)
    | some a =>
      match g.find a with
      | none => (false, g)
      | some an =>
        if an.outShape.is_dynamic || n.outShape.is_dynamic then (false, g)
        else if an.outShape = n.outShape then replace_output_update_name g i a
        else if is_squeeze an.op || is_unsqueeze an.op || is_reshape an.op then
          match static_dims n.outShape, an.inputs.head? with
          | some dims, some inner => splice_with_new_reshape g i inner dims
          | _, _ => (false, g)
        else (false, g)

/-- Translation of eliminate_unsqueeze (lines 177-239): over a squeeze with
known input rank and constant axes, cancel equal axis sets, else try the two
residual fusions under the same-scheme check; over a reshape, fuse into one
reshape to the final static shape. -/
def eliminate_unsqueeze (g : Graph) (i : Nat) : Bool × Graph :=
  match g.find i with
  | none => (false, g)
  | some n =>
    if !(is_unsqueeze n.op) then (false, g)
    else
      match n.inputs.head? with
      | none => (false, g)
      | some inpId =>
        match g.find inpId with
        | none => (false, g)
        | some inpN =>
          if is_squeeze inpN.op && !(inpN.outShape.rank_is_dynamic) then
            match get_axes g inpN, get_axes g n with
            | some sq_axes_val, some unsq_axes_val =>
              match inpN.inputs.head? with
              | none => (false, g)
              | some sqInId =>
                if is_equal_axes sq_axes_val unsq_axes_val then
                  replace_output_update_name g i sqInId
                else
                  resid_attempt g i sqInId .squeeze0 n.outShape
                    unsq_axes_val sq_axes_val true
                    (resid_attempt g i sqInId .unsqueeze0 n.outShape
                      sq_axes_val unsq_axes_val true (false, g))
            | _, _ => (false, g)
          else if is_reshape inpN.op && !(n.outShape.is_dynamic) then
            match static_dims n.outShape, inpN.inputs.head? with
            | some dims, some inner => splice_with_new_reshape g i inner dims
            | _, _ => (false, g)
          else (false, g)

/-- Translation of eliminate_squeeze (lines 241-304): symmetric to
eliminate_unsqueeze, with the rank-reducing flag off for both residual
computations.  The source checks the unsqueeze axes Constant twice (lines
250-253); a squeeze whose own axes input is not a Constant therefore reaches
get_axes unguarded, modelled here as the none arm returning no change. -/
def eliminate_squeeze (g : Graph) (i : Nat) : Bool × Graph :=
  match g.find i with
  | none => (false, g)
  | some n =>
    if !(is_squeeze n.op) then (false, g)
    else
      match n.inputs.head? with
      | none => (false, g)
      | some inpId =>
        match g.find inpId with
        | none => (false, g)
        | some inpN =>
          if is_unsqueeze inpN.op && !(inpN.outShape.rank_is_dynamic) then
            match get_axes g inpN, get_axes g n with
            | some unsq_axes_val, some sq_axes_val =>
              match inpN.inputs.head? with
              | none => (false, g)
              | some uInId =>
                if is_equal_axes unsq_axes_val sq_axes_val then
                  replace_output_update_name g i uInId
                else
                  resid_attempt g i uInId .squeeze0 n.outShape
                    unsq_axes_val sq_axes_val false
                    (resid_attempt g i uInId .unsqueeze0 n.outShape
                      sq_axes_val unsq_axes_val false (false, g))
            | _, _ => (false, g)
          else if is_reshape inpN.op && !(n.outShape.is_dynamic) then
            match static_dims n.outShape, inpN.inputs.head? with
            | some dims, some inner => splice_with_new_reshape g i inner dims
            | _, _ => (false, g)
          else (false, g)

/-- Translation of eliminate_stop_gradient (lines 306-310): splice the node
out unconditionally and report a change. -/
def eliminate_stop_gradient (g : Graph) (i : Nat) : Bool × Graph :=
  match g.find i with
  | none => (false, g)
  | some n =>
    match n.inputs.head? with
    | none => (false, g)
    | some a => (true, (replace_output_update_name g i a).2)

/-- Tags naming the registered handlers (the values of the dispatch
table). -/
inductive HTag
  | nop | sum | convert | concat | reshape | squeeze | unsqueeze
  | stopGradient
deriving DecidableEq, Repr

/-- Translation of the dispatcher table (lines 312-323): operator identity
to handler. -/
def dispatch : TypeInfo → Option HTag
  | .Pad_v0 => some .nop
  | .Pad_v1 => some .nop
  | .Sum_v0 => some .sum
  | .Convert_v0 => some .convert
  | .Slice_v0 => some .nop
  | .StopGradient_v0 => some .stopGradient
  | .Reshape_v1 => some .reshape
  | .Concat_v0 => some .concat
  | .Squeeze_v0 => some .squeeze
  | .Unsqueeze_v0 => some .unsqueeze
  | .Broadcast_v0 => some .nop
  | _ => none

/-- Run the handler named by a tag. -/
def apply_handler : HTag → Graph → Nat → Bool × Graph
  | .nop => eliminate_nop
  | .sum => eliminate_sum
  | .convert => eliminate_convert
  | .concat => eliminate_concat
  | .reshape => eliminate_reshape_v1
  | .squeeze => eliminate_squeeze
  | .unsqueeze => eliminate_unsqueeze
  | .stopGradient => eliminate_stop_gradient

/-- Modelled from the spec: Function::get_ops enumerates the nodes of the
graph in its existing order; the list is computed once, before the pass
mutates anything. -/
def get_ops (g : Graph) : List Nat :=
  g.nodes.map (fun p => p.1)

/-- The loop body of run_on_function (lines 329-338): visit the enumerated
nodes in order, invoke the dispatched handler when one exists, and
accumulate clobbered = handler(n) || clobbered. -/
def run_nodes : List Nat → Graph → Bool → Bool × Graph
  | [], g, clobbered => (clobbered, g)
  | i :: rest, g, clobbered =>
    match g.find i with
    | none => run_nodes rest g clobbered
    | some n =>
      match dispatch n.op.typeInfo with
      | none => run_nodes rest g clobbered
      | some tag =>
        let r := apply_handler tag g i
        run_nodes rest r.2 (r.1 || clobbered)

/-- Translation of pass::NopElimination::run_on_function (lines 325-341). -/
def run_on_function (g : Graph) : Bool × Graph :=
  run_nodes (get_ops g) g false

/-- The results, in visit order, of exactly the handler invocations the pass
performs (the spec-side trace used to state the overall-result law). -/
def invoked_handler_results : List Nat → Graph → List Bool
  | [], _ => []
  | i :: rest, g =>
    match g.find i with
    | none => invoked_handler_results rest g
    | some n =>
      match dispatch n.op.typeInfo with
      | none => invoked_handler_results rest g
      | some tag =>
        let r := apply_handler tag g i
        r.1 :: invoked_handler_results rest r.2

/-- Success of every unguarded downcast a dispatched handler performs on the
visited node: when the dispatcher keys the node to the Sum, Convert, Squeeze
or Unsqueeze handler, the corresponding cast yields a value. -/
def downcasts_ok (n : Node) : Prop :=
  match dispatch n.op.typeInfo with
  | some .sum => (as_type_sum n.op).isSome = true
  | some .convert => (as_type_convert n.op).isSome = true
  | some .squeeze => is_squeeze n.op = true
  | some .unsqueeze => is_unsqueeze n.op = true
  | _ => True

/-- Concrete graph for the dynamic-shape rule: a StopGradient over a
dynamic-shaped parameter, with one consumer. -/
def gC1 : Graph :=
  ⟨[(0, ⟨.param0, [], .dynRank, .f32⟩),
    (1, ⟨.stopGradient0, [0], .dynRank, .f32⟩),
    (2, ⟨.other 7 0, [1], .dynRank, .f32⟩)]⟩

/-- Concrete graph: a Pad over a dynamic-shaped parameter. -/
def gC1a : Graph :=
  ⟨[(0, ⟨.param0, [], .dynRank, .f32⟩),
    (1, ⟨.pad1, [0], .dynRank, .f32⟩),
    (2, ⟨.other 7 0, [1], .dynRank, .f32⟩)]⟩

/-- Concrete graph: squeeze over axis set {0} feeding unsqueeze over axis
set {1} — unequal sets with no solvable residual in either direction. -/
def gC2 : Graph :=
  ⟨[(0, ⟨.param0, [], .ranked [some 1, some 3], .f32⟩),
    (1, ⟨.constant0 [0], [], .ranked [some 1], .i64⟩),
    (2, ⟨.squeeze0, [0, 1], .ranked [some 3], .f32⟩),
    (3, ⟨.constant0 [1], [], .ranked [some 1], .i64⟩),
    (4, ⟨.unsqueeze0, [2, 3], .ranked [some 3, some 1], .f32⟩),
    (5, ⟨.other 9 0, [4], .ranked [some 3, some 1], .f32⟩)]⟩

/-- Concrete graph: squeeze(axes={1}) feeding unsqueeze(axes={1}) over a
static [2,1,4,5] input, with one consumer. -/
def gC4 : Graph :=
  ⟨[(0, ⟨.param0, [], .ranked [some 2, some 1, some 4, some 5], .f32⟩),
    (1, ⟨.constant0 [1], [], .ranked [some 1], .i64⟩),
    (2, ⟨.squeeze0, [0, 1], .ranked [some 2, some 4, some 5], .f32⟩),
    (3, ⟨.constant0 [1], [], .ranked [some 1], .i64⟩),
    (4, ⟨.unsqueeze0, [2, 3], .ranked [some 2, some 1, some 4, some 5], .f32⟩),
    (5, ⟨.other 9 0, [4], .ranked [some 2, some 1, some 4, some 5], .f32⟩)]⟩

/-- Concrete graph: a convert chain f32 -> i64 -> f32 feeding only a
NonZero consumer. -/
def gC6 : Graph :=
  ⟨[(0, ⟨.param0, [], .ranked [some 2], .f32⟩),
    (1, ⟨.convert0 .i64, [0], .ranked [some 2], .i64⟩),
    (2, ⟨.convert0 .f32, [1], .ranked [some 2], .f32⟩),
    (3, ⟨.nonZero3, [2], .ranked [some 1, none], .i64⟩)]⟩

/-- Concrete graph: a Pad whose static output shape equals its input
shape. -/
def gC7 : Graph :=
  ⟨[(0, ⟨.param0, [], .ranked [some 2, some 3], .f32⟩),
    (1, ⟨.pad1, [0], .ranked [some 2, some 3], .f32⟩),
    (2, ⟨.other 5 0, [1], .ranked [some 2, some 3], .f32⟩)]⟩

/-- Concrete graph: a convert to its own input type whose input is itself a
convert and whose sole consumer is the type-agnostic NonZero. -/
def gC8 : Graph :=
  ⟨[(0, ⟨.param0, [], .ranked [some 2], .f32⟩),
    (1, ⟨.convert0 .i64, [0], .ranked [some 2], .i64⟩),
    (2, ⟨.convert0 .i64, [1], .ranked [some 2], .i64⟩),
    (3, ⟨.nonZero3, [2], .ranked [some 1, none], .i64⟩)]⟩

/-- Concrete graph: a convert to its own input type with an ordinary
consumer. -/
def gC8a : Graph :=
  ⟨[(0, ⟨.param0, [], .ranked [some 2], .i32⟩),
    (1, ⟨.convert0 .i32, [0], .ranked [some 2], .i32⟩),
    (2, ⟨.other 4 0, [1], .ranked [some 2], .i32⟩)]⟩

/-- Concrete graph: a Sum with an empty reduction-axis set over a
dynamic-shaped input. -/
def gC9 : Graph :=
  ⟨[(0, ⟨.param0, [], .dynRank, .f32⟩),
    (1, ⟨.sum0 [], [0], .dynRank, .f32⟩),
    (2, ⟨.other 3 0, [1], .dynRank, .f32⟩)]⟩

theorem sortedSet_sorted (l : List Nat) : List.Sorted (· ≤ ·) (sortedSet l) :=
  List.sorted_insertionSort _ _

theorem sortedSet_nodup (l : List Nat) : (sortedSet l).Nodup :=
  ((List.perm_insertionSort _ _).nodup_iff).2 l.nodup_dedup

theorem mem_sortedSet {x : Nat} {l : List Nat} : x ∈ sortedSet l ↔ x ∈ l := by
  unfold sortedSet
  rw [(List.perm_insertionSort _ _).mem_iff, List.mem_dedup]

theorem sortedSet_length (l : List Nat) :
    (sortedSet l).length = l.toFinset.card := by
  unfold sortedSet
  rw [(List.perm_insertionSort _ _).length_eq, List.card_toFinset]

theorem set_difference_sortedSet (a b : List Nat) :
    set_difference (sortedSet a) (sortedSet b) =
      (a.toFinset \ b.toFinset).sort (· ≤ ·) := by
  refine List.eq_of_perm_of_sorted ?_ ((sortedSet_sorted a).filter _)
    (Finset.sort_sorted _ _)
  rw [set_difference,
    List.perm_ext_iff_of_nodup ((sortedSet_nodup a).filter _)
      (Finset.sort_nodup _ _)]
  intro x
  simp only [set_difference, List.mem_filter, decide_eq_true_eq,
    mem_sortedSet, Finset.mem_sort, Finset.mem_sdiff, List.mem_toFinset]

/-- C5: the residual-axis helper get_axes_remaining returns no solution
exactly when from − to is non-empty; otherwise it returns the sorted set
to − from, and when the rank-reducing flag is false every element at least
the cardinality of from is decreased by that cardinality. -/
theorem get_axes_remaining_spec (fromAxes toAxes : List Nat) (rr : Bool) :
    (get_axes_remaining fromAxes toAxes rr = none ↔
      fromAxes.toFinset \ toAxes.toFinset ≠ ∅) ∧
    (∀ r, get_axes_remaining fromAxes toAxes rr = some r →
      r = ((toAxes.toFinset \ fromAxes.toFinset).sort (· ≤ ·)).map
        (fun a =>
          if !rr && fromAxes.toFinset.card ≤ a then
            a - fromAxes.toFinset.card
          else a)) := by
  have hdef : get_axes_remaining fromAxes toAxes rr =
      if (set_difference (sortedSet fromAxes) (sortedSet toAxes)).length ≠ 0
      then none
      else if !rr then
        some ((set_difference (sortedSet toAxes) (sortedSet fromAxes)).map
          (fun a => if a < (sortedSet fromAxes).length then a
                    else a - (sortedSet fromAxes).length))
      else some (set_difference (sortedSet toAxes) (sortedSet fromAxes)) := rfl
  have hlen : (set_difference (sortedSet fromAxes) (sortedSet toAxes)).length
      = (fromAxes.toFinset \ toAxes.toFinset).card := by
    rw [set_difference_sortedSet, Finset.length_sort]
  rw [hdef, hlen, set_difference_sortedSet, sortedSet_length]
  by_cases h : (fromAxes.toFinset \ toAxes.toFinset).card ≠ 0
  · rw [if_pos h]
    refine ⟨⟨fun _ he => h (by rw [he, Finset.card_empty]), fun _ => rfl⟩,
      fun r hr => Option.noConfusion hr⟩
  · rw [if_neg h]
    push_neg at h
    have hemp : fromAxes.toFinset \ toAxes.toFinset = ∅ := Finset.card_eq_zero.1 h
    constructor
    · constructor
      · intro hnone
        cases rr <;> exact Option.noConfusion hnone
      · intro hx
        exact absurd hemp hx
    · intro r hr
      cases rr with
      | false =>
        simp only [Bool.not_false, if_pos] at hr
        cases hr
        simp only [Bool.not_false, Bool.true_and]
        apply List.map_congr_left
        intro a _
        simp only [decide_eq_true_eq]
        split_ifs <;> omega
      | true =>
        simp only [Bool.not_true, if_neg] at hr
        cases hr
        simp only [Bool.not_true, Bool.false_and, if_neg, Bool.false_eq_true,
          not_false_iff]
        exact (List.map_id _).symm

/-- C5 witness: from = {0,2}, to = {0,1,2,3}, rank-reducing off — the
residual is the shifted sorted difference (here [1,1], a collision of the
shifted indices). -/
theorem get_axes_remaining_spec_witness :
    ([1, 1] : List Nat) =
      ((([0, 1, 2, 3] : List Nat).toFinset \
          ([0, 2] : List Nat).toFinset).sort (· ≤ ·)).map
        (fun a =>
          if !false && ([0, 2] : List Nat).toFinset.card ≤ a then
            a - ([0, 2] : List Nat).toFinset.card
          else a) :=
  (get_axes_remaining_spec [0, 2] [0, 1, 2, 3] false).2 [1, 1] (by decide)

/-- C1 counterexample: the StopGradient handler is registered, yet on a
StopGradient node whose input and output shapes are dynamic it reports a
change and rewires the consumer — the graph is not left unchanged and the
result is not false. -/
theorem stop_gradient_rewrites_dynamic :
    dispatch (Op.stopGradient0).typeInfo = some HTag.stopGradient ∧
    (gC1.find 1).map (fun n => n.outShape.is_dynamic) = some true ∧
    (gC1.find 0).map (fun n => n.outShape.is_dynamic) = some true ∧
    eliminate_stop_gradient gC1 1 = (true, rewire gC1 1 0) ∧
    rewire gC1 1 0 ≠ gC1 := by decide

/-- C1 (amended): the handlers whose rewrite rests on shape comparison —
the identity-shape rule (pad/slice/broadcast) and the reshape rule — return
false and leave the graph unchanged on any node whose input or output shape
is dynamic; the shape-independent handlers (sum, convert, concat,
stop-gradient) may rewrite such nodes. -/
theorem shape_guarded_handlers_skip_dynamic
    (g : Graph) (i a : Nat) (n an : Node)
    (h1 : g.find i = some n) (h2 : n.inputs.head? = some a)
    (h3 : g.find a = some an)
    (hdyn : (an.outShape.is_dynamic || n.outShape.is_dynamic) = true) :
    eliminate_nop g i = (false, g) ∧ eliminate_reshape_v1 g i = (false, g) := by
  constructor
  · simp [eliminate_nop, h1, h2, h3, hdyn]
  · simp [eliminate_reshape_v1, h1, h2, h3, hdyn]

/-- C1 witness for the amended statement: a Pad over a dynamic-shaped
parameter is skipped by both shape-guarded handlers. -/
theorem shape_guarded_handlers_skip_dynamic_witness :
    eliminate_nop gC1a 1 = (false, gC1a) ∧
    eliminate_reshape_v1 gC1a 1 = (false, gC1a) :=
  shape_guarded_handlers_skip_dynamic gC1a 1 0
    ⟨.pad1, [0], .dynRank, .f32⟩ ⟨.param0, [], .dynRank, .f32⟩
    rfl rfl rfl (by decide)

/-- C9: a Sum whose reduction-axis set is empty is spliced out — its
consumers are rewired to its input and the handler reports true — with no
shape condition at all; a non-empty axis set yields false and no change. -/
theorem eliminate_sum_empty_axes (g : Graph) (i a : Nat) (n : Node)
    (axes : List Nat)
    (h1 : g.find i = some n) (h2 : n.op = .sum0 axes)
    (h3 : n.inputs.head? = some a)
    (hc : (g.target_inputs i).isEmpty = false) :
    (axes = [] → eliminate_sum g i = (true, rewire g i a)) ∧
    (axes ≠ [] → eliminate_sum g i = (false, g)) := by
  constructor
  · intro he
    subst he
    simp [eliminate_sum, h1, h2, h3, as_type_sum, replace_output_update_name,
      hc]
  · intro hne
    have hie : axes.isEmpty = false := by
      cases axes with
      | nil => exact absurd rfl hne
      | cons x xs => rfl
    simp [eliminate_sum, h1, h2, as_type_sum, hie]

/-- C9 witness: a Sum with empty axes over a dynamic-rank input is spliced
out. -/
theorem eliminate_sum_empty_axes_witness :
    eliminate_sum gC9 1 = (true, rewire gC9 1 0) :=
  (eliminate_sum_empty_axes gC9 1 0 ⟨.sum0 [], [0], .dynRank, .f32⟩ []
    rfl rfl rfl (by decide)).1 rfl

/-- C7: for a node handled by the identity-shape rule (pad, slice,
broadcast — the kinds the dispatcher keys to that handler), static and
equal input/output shapes make the handler splice the node out and report
true; static but different shapes yield false and no change. -/
theorem eliminate_nop_identity_shape (g : Graph) (i a : Nat) (n an : Node)
    (h1 : g.find i = some n)
    (_hk : dispatch n.op.typeInfo = some HTag.nop)
    (h2 : n.inputs.head? = some a) (h3 : g.find a = some an)
    (hsa : an.outShape.is_dynamic = false)
    (hsn : n.outShape.is_dynamic = false)
    (hc : (g.target_inputs i).isEmpty = false) :
    (an.outShape = n.outShape → eliminate_nop g i = (true, rewire g i a)) ∧
    (an.outShape ≠ n.outShape → eliminate_nop g i = (false, g)) := by
  constructor
  · intro he
    simp [eliminate_nop, h1, h2, h3, hsa, hsn, he, replace_output_update_name,
      hc]
  · intro hne
    simp [eliminate_nop, h1, h2, h3, hsa, hsn, hne]

/-- C7 witness: a Pad whose static output shape equals its input shape is
spliced out. -/
theorem eliminate_nop_identity_shape_witness :
    eliminate_nop gC7 1 = (true, rewire gC7 1 0) :=
  (eliminate_nop_identity_shape gC7 1 0
    ⟨.pad1, [0], .ranked [some 2, some 3], .f32⟩
    ⟨.param0, [], .ranked [some 2, some 3], .f32⟩
    rfl rfl rfl rfl rfl rfl (by decide)).1 rfl

/-- C8 counterexample: a conversion to its own input's element type whose
input is itself a conversion and whose sole consumer is type-agnostic is
spliced out, but its consumer is rewired to the inner conversion's input
(node 0), not to the conversion's input (node 1) as the claim states. -/
theorem convert_same_type_inner_collapse :
    (gC8.find 2).map (fun n => n.op) = some (.convert0 .i64) ∧
    (gC8.find 2).map (fun n => n.inputs) = some [1] ∧
    (gC8.find 1).map (fun n => n.outType) = some .i64 ∧
    eliminate_convert gC8 2 = (true, rewire gC8 2 0) ∧
    eliminate_convert gC8 2 ≠ (true, rewire gC8 2 1) ∧
    ((rewire gC8 2 0).find 3).map (fun n => n.inputs) = some [0] := by decide

/-- C8 (amended): a conversion to its own input's element type, with at
least one consumer, is spliced out and reports true; consumers are rewired
to the conversion's input, except that when the sole consumer is
type-agnostic and the input is itself a conversion they are rewired to the
inner conversion's input. -/
theorem convert_same_type_spliced (g : Graph) (i a : Nat) (n an : Node)
    (dest : ElemType)
    (h1 : g.find i = some n) (h2 : n.op = .convert0 dest)
    (h3 : n.inputs.head? = some a) (h4 : g.find a = some an)
    (ht : dest = an.outType)
    (hc : (g.target_inputs i).isEmpty = false) :
    eliminate_convert g i = (true, rewire g i a) ∨
    (convert_agnostic g i = true ∧ is_convert an.op = true ∧
      eliminate_convert g i =
        (true, rewire g i ((an.inputs.head?).getD a))) := by
  by_cases hagn : (convert_agnostic g i && is_convert an.op) = true
  · right
    have h5 : convert_agnostic g i = true ∧ is_convert an.op = true := by
      simpa [Bool.and_eq_true] using hagn
    refine ⟨h5.1, h5.2, ?_⟩
    simp [eliminate_convert, h1, h2, h3, h4, as_type_convert, ht, hagn,
      replace_output_update_name, hc]
  · left
    simp [eliminate_convert, h1, h2, h3, h4, as_type_convert, ht, hagn,
      replace_output_update_name, hc]

/-- C8 witness for the amended statement: an i32 -> i32 conversion with an
ordinary consumer is spliced out onto its input. -/
theorem convert_same_type_spliced_witness :
    eliminate_convert gC8a 1 = (true, rewire gC8a 1 0) ∨
    (convert_agnostic gC8a 1 = true ∧
      is_convert (Op.param0) = true ∧
      eliminate_convert gC8a 1 =
        (true, rewire gC8a 1 ((([] : List Nat).head?).getD 0))) :=
  convert_same_type_spliced gC8a 1 0
    ⟨.convert0 .i32, [0], .ranked [some 2], .i32⟩
    ⟨.param0, [], .ranked [some 2], .i32⟩ .i32
    rfl rfl rfl rfl rfl (by decide)

theorem find_map_nodes (f : Node → Node) (l : List (Nat × Node)) (i : Nat) :
    (((l.map (fun p => (p.1, f p.2))).find? (fun p => decide (p.1 = i))).map
        (fun p => p.2))
      = ((l.find? (fun p => decide (p.1 = i))).map (fun p => p.2)).map f := by
  induction l with
  | nil => rfl
  | cons hd tl ih =>
    by_cases h : hd.1 = i
    · simp only [List.map_cons]
      rw [List.find?_cons_of_pos _ (by simpa using h),
        List.find?_cons_of_pos _ (by simpa using h)]
      rfl
    · simp only [List.map_cons]
      rw [List.find?_cons_of_neg _ (by simpa using h),
        List.find?_cons_of_neg _ (by simpa using h)]
      exact ih

theorem find_rewire (g : Graph) (o r i : Nat) :
    (rewire g o r).find i = (g.find i).map (remap o r) := by
  unfold rewire Graph.find
  exact find_map_nodes (remap o r) g.nodes i

theorem target_inputs_rewire_self (g : Graph) (o r : Nat) (h : r ≠ o) :
    (rewire g o r).target_inputs o = [] := by
  unfold rewire Graph.target_inputs
  induction g.nodes with
  | nil => rfl
  | cons hd tl ih =>
    simp only [List.map_cons, List.foldr_cons]
    rw [ih]
    have hfil : (remap o r hd.2).inputs.filter (fun j => decide (j = o)) = [] := by
      rw [List.filter_eq_nil_iff]
      intro j hj
      simp only [remap, List.mem_map] at hj
      obtain ⟨x, _, rfl⟩ := hj
      by_cases hxo : x = o
      · simp [hxo, h]
      · simp [hxo]
    simp [hfil]

/-- C6: a chain A -> convert(T1) -> convert(T2), T1 different from T2,
whose second conversion feeds exactly one consumer of a type-agnostic kind,
is collapsed by the handler: the consumer is rewired to read A directly,
the handler reports true, and afterwards no node reads either conversion
other than the dead chain itself. -/
theorem convert_chain_agnostic_collapse
    (g : Graph) (c2 c1 aId z : Nat) (n2 n1 zn : Node) (t1 t2 : ElemType)
    (h1 : g.find c2 = some n2) (h2 : n2.op = .convert0 t2)
    (h3 : n2.inputs = [c1])
    (h4 : g.find c1 = some n1) (h5 : n1.op = .convert0 t1)
    (h6 : n1.inputs = [aId]) (_h7 : n1.outType = t1)
    (_hne : t2 ≠ t1)
    (h8 : g.target_inputs c2 = [z]) (h9 : g.find z = some zn)
    (h10 : type_agnostic.contains zn.op.typeInfo = true)
    (h11 : aId ≠ c2) :
    eliminate_convert g c2 = (true, rewire g c2 aId) ∧
    (rewire g c2 aId).target_inputs c2 = [] ∧
    (rewire g c2 aId).find z = some (remap c2 aId zn) := by
  have hagn : convert_agnostic g c2 = true := by
    simp only [convert_agnostic, h8, h9]
    simpa using h10
  refine ⟨?_, target_inputs_rewire_self g c2 aId h11, ?_⟩
  · have hhead : n2.inputs.head? = some c1 := by rw [h3]; rfl
    have hinner : (n1.inputs.head?).getD c1 = aId := by rw [h6]; rfl
    simp [eliminate_convert, h1, h2, hhead, h4, as_type_convert, hagn,
      is_convert, h5, replace_output_update_name, h8, hinner]
  · rw [find_rewire, h9]
    rfl

/-- C6 witness: the chain f32 -> i64 -> f32 into NonZero collapses onto the
original f32 value. -/
theorem convert_chain_agnostic_collapse_witness :
    eliminate_convert gC6 2 = (true, rewire gC6 2 0) ∧
    (rewire gC6 2 0).target_inputs 2 = [] ∧
    (rewire gC6 2 0).find 3 =
      some (remap 2 0 ⟨.nonZero3, [2], .ranked [some 1, none], .i64⟩) :=
  convert_chain_agnostic_collapse gC6 2 1 0 3
    ⟨.convert0 .f32, [1], .ranked [some 2], .f32⟩
    ⟨.convert0 .i64, [0], .ranked [some 2], .i64⟩
    ⟨.nonZero3, [2], .ranked [some 1, none], .i64⟩
    .i64 .f32
    rfl rfl rfl rfl rfl rfl rfl (by decide) rfl rfl (by decide) (by decide)

theorem run_nodes_fst (ids : List Nat) (g : Graph) (acc : Bool) :
    (run_nodes ids g acc).1 =
      (acc || (invoked_handler_results ids g).any (fun b => b)) := by
  induction ids generalizing g acc with
  | nil => simp [run_nodes, invoked_handler_results]
  | cons i rest ih =>
    simp only [run_nodes, invoked_handler_results]
    cases hf : g.find i with
    | none => simp [ih]
    | some n =>
      cases hd : dispatch n.op.typeInfo with
      | none => simp [hd, ih]
      | some tag =>
        simp only [hd]
        rw [ih]
        cases (apply_handler tag g i).1 <;> cases acc <;> simp

/-- C3: the invocation of run_on_function visits the graph's enumeration in
order, dispatching by exact kind+version identity, and its overall result
is true exactly when some invoked handler returned true — the trace
invoked_handler_results lists precisely the results of the handler
invocations the pass performs, in visit order. -/
theorem run_on_function_true_iff (g : Graph) :
    (run_on_function g).1 = true ↔
      true ∈ invoked_handler_results (get_ops g) g := by
  unfold run_on_function
  rw [run_nodes_fst]
  simp [List.any_eq_true]

/-- C10: whenever the dispatcher keys a node to a handler that performs an
unguarded downcast (Sum, Convert, Squeeze, Unsqueeze), the node's exact
kind+version identity guarantees the cast succeeds. -/
theorem dispatched_downcasts_succeed (n : Node) : downcasts_ok n := by
  obtain ⟨op, inputs, os, ot⟩ := n
  cases op <;> simp [downcasts_ok, Op.typeInfo, dispatch, as_type_sum,
    as_type_convert, is_squeeze, is_unsqueeze]

theorem resid_attempt_none {g : Graph} {i baseId : Nat} {op : Op}
    {origPs : PShape} {fromA toA : List Nat} {rr : Bool} {fb : Bool × Graph}
    (h : ∀ a, get_axes_remaining fromA toA rr = some a →
      resid_scheme_ok g baseId op origPs a = false) :
    resid_attempt g i baseId op origPs fromA toA rr fb = fb := by
  cases hga : get_axes_remaining fromA toA rr with
  | none => simp [resid_attempt, hga]
  | some a =>
    have hok := h a hga
    cases hro : resid_out_pshape g baseId op a with
    | none => simp [resid_attempt, hga, hro]
    | some p =>
      have hok2 : PShape.same_scheme origPs p = false := by
        unfold resid_scheme_ok at hok
        rw [hro] at hok
        simpa using hok
      simp [resid_attempt, hga, hro, hok2]

theorem resid_attempt_true {g : Graph} {i baseId : Nat} {op : Op}
    {origPs : PShape} {fromA toA : List Nat} {rr : Bool} {fb : Bool × Graph}
    {g2 : Graph}
    (h : resid_attempt g i baseId op origPs fromA toA rr fb = (true, g2)) :
    (∃ a, get_axes_remaining fromA toA rr = some a ∧
      resid_scheme_ok g baseId op origPs a = true) ∨ fb = (true, g2) := by
  revert h
  cases hga : get_axes_remaining fromA toA rr with
  | none =>
    simp only [resid_attempt, hga]
    intro h
    exact Or.inr h
  | some a =>
    cases hro : resid_out_pshape g baseId op a with
    | none =>
      simp only [resid_attempt, hga, hro]
      intro h
      exact Or.inr h
    | some p =>
      by_cases hs : PShape.same_scheme origPs p = true
      · intro _
        exact Or.inl ⟨a, rfl, by unfold resid_scheme_ok; rw [hro]; exact hs⟩
      · simp only [resid_attempt, hga, hro, if_neg hs]
        intro h
        exact Or.inr h

/-- C4: a squeeze with constant axes feeding an unsqueeze with an equal
constant axis set (as deduplicated, order-independent sets), over data of
static rank exceeding every squeeze axis, with at least one consumer of the
unsqueeze: the handler splices both operators out, rewiring every consumer
of the unsqueeze onto the squeeze's input, and reports true. -/
theorem squeeze_unsqueeze_equal_axes_cancel
    (g : Graph) (u sId xId ucId scId : Nat) (un sn cu cs xn : Node)
    (uData sData : List Int) (xdims : List Dim)
    (h1 : g.find u = some un) (h2 : un.op = .unsqueeze0)
    (h3 : un.inputs = [sId, ucId])
    (h4 : g.find sId = some sn) (h5 : sn.op = .squeeze0)
    (h6 : sn.inputs = [xId, scId])
    (h7 : g.find ucId = some cu) (h8 : cu.op = .constant0 uData)
    (h9 : g.find scId = some cs) (h10 : cs.op = .constant0 sData)
    (h11 : sn.outShape.rank_is_dynamic = false)
    (heq : is_equal_axes (sData.map Int.toNat) (uData.map Int.toNat) = true)
    (_hx : g.find xId = some xn) (_hx2 : xn.outShape = .ranked xdims)
    (_hmax : ∀ a ∈ sData.map Int.toNat, a < xdims.length)
    (hcons : (g.target_inputs u).isEmpty = false) :
    eliminate_unsqueeze g u = (true, rewire g u xId) := by
  have hgu : get_axes g un = some (uData.map Int.toNat) := by
    simp [get_axes, h3, h7, h8]
  have hgs : get_axes g sn = some (sData.map Int.toNat) := by
    simp [get_axes, h6, h9, h10]
  have hh : un.inputs.head? = some sId := by rw [h3]; rfl
  have hsh : sn.inputs.head? = some xId := by rw [h6]; rfl
  simp [eliminate_unsqueeze, h1, h2, is_unsqueeze, hh, h4, h5, is_squeeze,
    h11, hgu, hgs, hsh, heq, replace_output_update_name, hcons]

/-- C4 witness: the scenario squeeze(axes={1}) then unsqueeze(axes={1})
over a static [2,1,4,5] input collapses to the original producer. -/
theorem squeeze_unsqueeze_equal_axes_cancel_witness :
    eliminate_unsqueeze gC4 4 = (true, rewire gC4 4 0) :=
  squeeze_unsqueeze_equal_axes_cancel gC4 4 2 0 3 1
    ⟨.unsqueeze0, [2, 3], .ranked [some 2, some 1, some 4, some 5], .f32⟩
    ⟨.squeeze0, [0, 1], .ranked [some 2, some 4, some 5], .f32⟩
    ⟨.constant0 [1], [], .ranked [some 1], .i64⟩
    ⟨.constant0 [1], [], .ranked [some 1], .i64⟩
    ⟨.param0, [], .ranked [some 2, some 1, some 4, some 5], .f32⟩
    [1] [1] [some 2, some 1, some 4, some 5]
    rfl rfl rfl rfl rfl rfl rfl rfl rfl rfl rfl (by decide)
    rfl rfl (by decide) (by decide)

/-- C2: in the squeeze/unsqueeze fusion rules, when the two constant axis
sets are unequal the adjacent pair is replaced by a single residual squeeze
or unsqueeze only when the replacement's inferred output shape matches the
original output shape by same-scheme comparison; when neither residual-axis
computation yields a candidate passing that check, the handler makes no
change and returns false.  Stated for both eliminate_unsqueeze (first
conjunct) and eliminate_squeeze (second conjunct). -/
theorem squeeze_unsqueeze_fusion_guarded :
    (∀ (g : Graph) (u sId xId ucId scId : Nat) (un sn cu cs : Node)
        (uData sData : List Int),
      g.find u = some un → un.op = .unsqueeze0 → un.inputs = [sId, ucId] →
      g.find sId = some sn → sn.op = .squeeze0 → sn.inputs = [xId, scId] →
      g.find ucId = some cu → cu.op = .constant0 uData →
      g.find scId = some cs → cs.op = .constant0 sData →
      sn.outShape.rank_is_dynamic = false →
      is_equal_axes (sData.map Int.toNat) (uData.map Int.toNat) = false →
      ((∀ a, get_axes_remaining (uData.map Int.toNat) (sData.map Int.toNat)
            true = some a →
          resid_scheme_ok g xId .squeeze0 un.outShape a = false) →
        (∀ a, get_axes_remaining (sData.map Int.toNat) (uData.map Int.toNat)
            true = some a →
          resid_scheme_ok g xId .unsqueeze0 un.outShape a = false) →
        eliminate_unsqueeze g u = (false, g)) ∧
      (∀ g2, eliminate_unsqueeze g u = (true, g2) →
        ∃ a,
          (get_axes_remaining (uData.map Int.toNat) (sData.map Int.toNat)
              true = some a ∧
            resid_scheme_ok g xId .squeeze0 un.outShape a = true) ∨
          (get_axes_remaining (sData.map Int.toNat) (uData.map Int.toNat)
              true = some a ∧
            resid_scheme_ok g xId .unsqueeze0 un.outShape a = true))) ∧
    (∀ (g : Graph) (s uId xId scId ucId : Nat) (sn un cu cs : Node)
        (sData uData : List Int),
      g.find s = some sn → sn.op = .squeeze0 → sn.inputs = [uId, scId] →
      g.find uId = some un → un.op = .unsqueeze0 → un.inputs = [xId, ucId] →
      g.find ucId = some cu → cu.op = .constant0 uData →
      g.find scId = some cs → cs.op = .constant0 sData →
      un.outShape.rank_is_dynamic = false →
      is_equal_axes (uData.map Int.toNat) (sData.map Int.toNat) = false →
      ((∀ a, get_axes_remaining (uData.map Int.toNat) (sData.map Int.toNat)
            false = some a →
          resid_scheme_ok g xId .squeeze0 sn.outShape a = false) →
        (∀ a, get_axes_remaining (sData.map Int.toNat) (uData.map Int.toNat)
            false = some a →
          resid_scheme_ok g xId .unsqueeze0 sn.outShape a = false) →
        eliminate_squeeze g s = (false, g)) ∧
      (∀ g2, eliminate_squeeze g s = (true, g2) →
        ∃ a,
          (get_axes_remaining (uData.map Int.toNat) (sData.map Int.toNat)
              false = some a ∧
            resid_scheme_ok g xId .squeeze0 sn.outShape a = true) ∨
          (get_axes_remaining (sData.map Int.toNat) (uData.map Int.toNat)
              false = some a ∧
            resid_scheme_ok g xId .unsqueeze0 sn.outShape a = true))) := by
  constructor
  · intro g u sId xId ucId scId un sn cu cs uData sData
      h1 h2 h3 h4 h5 h6 h7 h8 h9 h10 h11 hne
    have hgu : get_axes g un = some (uData.map Int.toNat) := by
      simp [get_axes, h3, h7, h8]
    have hgs : get_axes g sn = some (sData.map Int.toNat) := by
      simp [get_axes, h6, h9, h10]
    have hh : un.inputs.head? = some sId := by rw [h3]; rfl
    have hsh : sn.inputs.head? = some xId := by rw [h6]; rfl
    have hred : eliminate_unsqueeze g u =
        resid_attempt g u xId .squeeze0 un.outShape (uData.map Int.toNat)
          (sData.map Int.toNat) true
          (resid_attempt g u xId .unsqueeze0 un.outShape
            (sData.map Int.toNat) (uData.map Int.toNat) true (false, g)) := by
      simp [eliminate_unsqueeze, h1, h2, is_unsqueeze, hh, h4, h5, is_squeeze,
        h11, hgu, hgs, hsh, hne]
    constructor
    · intro hA hB
      rw [hred, resid_attempt_none hA, resid_attempt_none hB]
    · intro g2 hrun
      rw [hred] at hrun
      rcases resid_attempt_true hrun with ⟨a, ha, hok⟩ | h2nd
      · exact ⟨a, Or.inl ⟨ha, hok⟩⟩
      · rcases resid_attempt_true h2nd with ⟨a, ha, hok⟩ | hfalse
        · exact ⟨a, Or.inr ⟨ha, hok⟩⟩
        · simp at hfalse
  · intro g s uId xId scId ucId sn un cu cs sData uData
      h1 h2 h3 h4 h5 h6 h7 h8 h9 h10 h11 hne
    have hgu : get_axes g un = some (uData.map Int.toNat) := by
      simp [get_axes, h6, h7, h8]
    have hgs : get_axes g sn = some (sData.map Int.toNat) := by
      simp [get_axes, h3, h9, h10]
    have hh : sn.inputs.head? = some uId := by rw [h3]; rfl
    have huh : un.inputs.head? = some xId := by rw [h6]; rfl
    have hred : eliminate_squeeze g s =
        resid_attempt g s xId .squeeze0 sn.outShape (uData.map Int.toNat)
          (sData.map Int.toNat) false
          (resid_attempt g s xId .unsqueeze0 sn.outShape
            (sData.map Int.toNat) (uData.map Int.toNat) false (false, g)) := by
      simp [eliminate_squeeze, h1, h2, is_squeeze, hh, h4, h5, is_unsqueeze,
        h11, hgu, hgs, huh, hne]
    constructor
    · intro hA hB
      rw [hred, resid_attempt_none hA, resid_attempt_none hB]
    · intro g2 hrun
      rw [hred] at hrun
      rcases resid_attempt_true hrun with ⟨a, ha, hok⟩ | h2nd
      · exact ⟨a, Or.inl ⟨ha, hok⟩⟩
      · rcases resid_attempt_true h2nd with ⟨a, ha, hok⟩ | hfalse
        · exact ⟨a, Or.inr ⟨ha, hok⟩⟩
        · simp at hfalse

/-- C2 witness: squeeze over {0} feeding unsqueeze over {1} — unequal sets
with no solvable residual in either direction — is left unchanged with
result false. -/
theorem squeeze_unsqueeze_fusion_guarded_witness :
    eliminate_unsqueeze gC2 4 = (false, gC2) := by
  have h := (squeeze_unsqueeze_fusion_guarded.1 gC2 4 2 0 3 1
    ⟨.unsqueeze0, [2, 3], .ranked [some 3, some 1], .f32⟩
    ⟨.squeeze0, [0, 1], .ranked [some 3], .f32⟩
    ⟨.constant0 [1], [], .ranked [some 1], .i64⟩
    ⟨.constant0 [0], [], .ranked [some 1], .i64⟩
    [1] [0] rfl rfl rfl rfl rfl rfl rfl rfl rfl rfl rfl (by decide)).1
  apply h
  · intro a ha
    rw [(by decide : get_axes_remaining (([1] : List Int).map Int.toNat)
        (([0] : List Int).map Int.toNat) true = none)] at ha
    exact Option.noConfusion ha
  · intro a ha
    rw [(by decide : get_axes_remaining (([0] : List Int).map Int.toNat)
        (([1] : List Int).map Int.toNat) true = none)] at ha
    exact Option.noConfusion ha
